import Mathlib

/-!
Shallow embedding of the myocardial-infarction reaction-diffusion engine.

Conventions:
* C++ `double` values are modelled as exact rationals `ℚ`; the transcendental
  library functions `exp` and `sqrt` are abstracted as explicit function
  parameters `rexp rsqrt : ℚ → ℚ`, so every definition stays computable and
  every statement holds for an arbitrary interpretation of those functions.
* A 2D array `std::vector<std::vector<double>>` of the fixed grid size is
  modelled as a total function `Grid = ℕ → ℕ → ℚ`; the Lean value `g x y`
  models the C++ access `grid[y][x]`.  All claims quantify over in-bounds
  indices `x < width`, `y < height`.
* The boolean scar mask `mi_region_` is modelled as `BGrid = ℕ → ℕ → Bool`.
-/

namespace MI

/-- A 2D field of doubles; `g x y` models the C++ access `grid[y][x]`. -/
abbrev Grid := ℕ → ℕ → ℚ

/-- A 2D field of booleans (the scar mask `mi_region_`). -/
abbrev BGrid := ℕ → ℕ → Bool

/-- The all-zero field, modelling a freshly value-initialized result array
such as `std::vector<std::vector<double>>(height_, std::vector<double>(width_, 0.0))`. -/
def zeroGrid : Grid := fun _ _ => 0

/-- The index set of the diffusion loops
`for (y = 1; y < height_-1; ++y) for (x = 1; x < width_-1; ++x)`:
the interior cells, excluding the outermost ring.  With `int` arithmetic the
loops run exactly for `1 ≤ x`, `x+1 < W`, `1 ≤ y`, `y+1 < H`. -/
def interiorCell (W H x y : ℕ) : Prop :=
  1 ≤ x ∧ x + 1 < W ∧ 1 ≤ y ∧ y + 1 < H

instance (W H x y : ℕ) : Decidable (interiorCell W H x y) := by
  unfold interiorCell; infer_instance

/-! ## FitzHughNagumo (the Simplified Excitable variant) -/

/-- The state owned by a `FitzHughNagumo` object: grid dimensions, time step,
simulation time, the scalar parameters `a_ b_ c_ d_`, the diffusion
coefficients `du_ dv_`, and the fields `u_ v_ stimulus_`. -/
structure FHNState where
  width : ℕ
  height : ℕ
  dt : ℚ
  time : ℚ
  a : ℚ
  b : ℚ
  c : ℚ
  d : ℚ
  du : ℚ
  dv : ℚ
  u : Grid
  v : Grid
  stim : Grid

/-- Embeds `FitzHughNagumo::FitzHughNagumo(width, height, dt)`: parameters default to
`a=0.1, b=0.5, c=1.0, d=0.0`, diffusion coefficients to `du=0.1, dv=0.0`,
time to `0`, and all fields are zero-initialized. -/
def fhnNew (W H : ℕ) (dtq : ℚ) : FHNState :=
  { width := W, height := H, dt := dtq, time := 0,
    a := 0.1, b := 0.5, c := 1, d := 0, du := 0.1, dv := 0,
    u := zeroGrid, v := zeroGrid, stim := zeroGrid }

/-- Embeds `FitzHughNagumo::applyDiffusion(grid, coeff, result)`: writes
`coeff * (grid[y-1][x] + grid[y+1][x] + grid[y][x-1] + grid[y][x+1] - 4*grid[y][x])`
at every interior cell of `result` and leaves every other cell of `result`
unmodified.  There is no mask in this class. -/
def fhnApplyDiffusion (W H : ℕ) (coeff : ℚ) (g res : Grid) : Grid := fun x y =>
  if interiorCell W H x y then
    coeff * (g x (y-1) + g x (y+1) + g (x-1) y + g (x+1) y - 4 * g x y)
  else res x y

/-- Embeds `FitzHughNagumo::reactionU`: `u - u³/3 - v + stimulus`. -/
def reactionU (uv vv sv : ℚ) : ℚ := uv - uv * uv * uv / 3 - vv + sv

/-- Embeds `FitzHughNagumo::reactionV`: `(u + a - b*v) / c`. -/
def reactionV (aq bq cq uv vv : ℚ) : ℚ := (uv + aq - bq * vv) / cq

/-- The `du_dt` array computed by `FitzHughNagumo::step` before reaction terms
are added: zero-initialized, then overwritten by `applyDiffusion(u_, du_, du_dt)`
only when `du_ > 0.0`. -/
def fhnDiffU (s : FHNState) : Grid :=
  if s.du > 0 then fhnApplyDiffusion s.width s.height s.du s.u zeroGrid else zeroGrid

/-- The `dv_dt` array computed by `FitzHughNagumo::step` before reaction terms
are added: zero-initialized, then overwritten by `applyDiffusion(v_, dv_, dv_dt)`
only when `dv_ > 0.0`. -/
def fhnDiffV (s : FHNState) : Grid :=
  if s.dv > 0 then fhnApplyDiffusion s.width s.height s.dv s.v zeroGrid else zeroGrid

/-- Embeds `FitzHughNagumo::step`: forward Euler update of every cell, reading `u_`,
`v_`, `stimulus_` from the pre-step buffers, writing into the fresh buffers
`u_new_`, `v_new_`, then swapping and advancing time by `dt_`.  The stimulus
field is not modified by a step. -/
def fhnStep (s : FHNState) : FHNState :=
  { s with
    u := fun x y =>
      s.u x y + s.dt * (fhnDiffU s x y + reactionU (s.u x y) (s.v x y) (s.stim x y)),
    v := fun x y =>
      s.v x y + s.dt * (fhnDiffV s x y + reactionV s.a s.b s.c (s.u x y) (s.v x y)),
    time := s.time + s.dt }

/-- Embeds `FitzHughNagumo::run(steps)`: `steps` sequential calls of `step`. -/
def fhnRun : ℕ → FHNState → FHNState
  | 0, s => s
  | n+1, s => fhnRun n (fhnStep s)

/-- Embeds `FitzHughNagumo::addStimulus(x, y, strength, duration)`: rejects
out-of-range coordinates without mutation, otherwise sets
`stimulus_[y][x] = strength`.  The duration argument is ignored. -/
def addStimulus (s : FHNState) (x y : ℕ) (strength _dur : ℚ) : FHNState :=
  if x < s.width ∧ y < s.height then
    { s with stim := fun i jj => if i = x ∧ jj = y then strength else s.stim i jj }
  else s

/-! ## State persistence (`saveState` / `loadState`)

The save file is plain text: line 1 `width height time`, line 2 `a b c d`,
line 3 `du dv`, followed by the `u_` rows then the `v_` rows in row-major
order.  We model the token stream of the file: a parsed header plus the list
of whitespace-separated field tokens.  A field-data parse failure in the C++
code (`!(file >> u_[y][x])`) corresponds to the token list running out. -/

/-- The token content of a state file: header values followed by the
row-major field tokens (`u` block then `v` block). -/
structure StateFile where
  fw : ℕ
  fh : ℕ
  ftime : ℚ
  fa : ℚ
  fb : ℚ
  fc : ℚ
  fd : ℚ
  fdu : ℚ
  fdv : ℚ
  ftoks : List ℚ

/-- Row-major in-place fill of a W-wide grid from a token list, modelling the
nested read loops of `loadState`: cell `(x,y)` is the `(y*W+x)`-th read, reads
stop at the first missing token, and cells not yet reached keep their old
value. -/
def fillRowMajor (W : ℕ) (toks : List ℚ) (g : Grid) : Grid := fun x y =>
  if x < W ∧ y * W + x < toks.length then toks.getD (y * W + x) 0 else g x y

/-- Embeds `FitzHughNagumo::loadState`: reads `file_width file_height` and `time_`
from the header (mutating `time_` in place), then checks the dimensions
against the live grid; on match it reads `a_ b_ c_ d_ du_ dv_` in place and
then the `u_` and `v_` blocks cell by cell, returning `false` as soon as a
read fails.  Returns the status and the resulting object state. -/
def loadState (s : FHNState) (fl : StateFile) : Bool × FHNState :=
  let s1 := { s with time := fl.ftime }
  if fl.fw = s.width ∧ fl.fh = s.height then
    let s2 := { s1 with a := fl.fa, b := fl.fb, c := fl.fc, d := fl.fd,
                        du := fl.fdu, dv := fl.fdv }
    let need := s.width * s.height
    if 2 * need ≤ fl.ftoks.length then
      (true, { s2 with u := fillRowMajor s.width (fl.ftoks.take need) s2.u,
                       v := fillRowMajor s.width ((fl.ftoks.drop need).take need) s2.v })
    else if need ≤ fl.ftoks.length then
      (false, { s2 with u := fillRowMajor s.width (fl.ftoks.take need) s2.u,
                        v := fillRowMajor s.width (fl.ftoks.drop need) s2.v })
    else
      (false, { s2 with u := fillRowMajor s.width fl.ftoks s2.u })
  else (false, s1)

/-- The row-major token list of a W×H field, as written by the save loops. -/
def rowMajorToks (W H : ℕ) (g : Grid) : List ℚ :=
  ((List.range H).map fun y => (List.range W).map fun x => g x y).flatten

/-- Embeds `FitzHughNagumo::saveState`: writes the header and then the `u_` and `v_`
blocks in row-major order.  Every numeric value passes through the default
text formatting of the output stream, abstracted here as `fmt : ℚ → ℚ`
(the value that is parsed back from the printed token); the C++ default
formatting keeps only 6 significant digits. -/
def saveState (fmt : ℚ → ℚ) (s : FHNState) : StateFile :=
  { fw := s.width, fh := s.height, ftime := fmt s.time,
    fa := fmt s.a, fb := fmt s.b, fc := fmt s.c, fd := fmt s.d,
    fdu := fmt s.du, fdv := fmt s.dv,
    ftoks := (rowMajorToks s.width s.height s.u
              ++ rowMajorToks s.width s.height s.v).map fmt }

/-- Modelled from the source formatting: `operator<<` on a `double` with the
default stream precision prints 6 significant digits.  For magnitudes in
`[0.1, 1)` (and for values exactly representable with 6 decimal places, such
as the constructor defaults) this equals rounding to 6 decimal places, which
is all the failing input below needs. -/
def fmt6 (q : ℚ) : ℚ := (round (q * 10^6) : ℚ) / 10^6

/-! ## CardiacElectrophysiology base class -/

/-- Embeds `CardiacElectrophysiology::applyDiffusion(grid, result)`: over the
interior cells, a flagged cell of `mi_region_` gets `result[y][x] = 0.0`
(`continue`), every other interior cell gets
`conductivity_ * (grid[y-1][x] + grid[y+1][x] + grid[y][x-1] + grid[y][x+1] - 4*grid[y][x])`;
cells outside the interior are left unmodified. -/
def ceApplyDiffusion (W H : ℕ) (mi : BGrid) (cond : ℚ) (g res : Grid) : Grid := fun x y =>
  if interiorCell W H x y then
    if mi x y then 0
    else cond * (g x (y-1) + g x (y+1) + g (x-1) y + g (x+1) y - 4 * g x y)
  else res x y

/-! ## Luo-Rudy model -/

/-- The state owned by a `LuoRudyModel` object: the base-class members
(dimensions, `dt_`, `time_`, `conductivity_`, `mi_region_`), the maximal
conductances, and the eleven per-cell state fields. -/
structure LRState where
  width : ℕ
  height : ℕ
  dt : ℚ
  time : ℚ
  conductivity : ℚ
  mi : BGrid
  GNa : ℚ
  Gsi : ℚ
  GK : ℚ
  GK1 : ℚ
  Gb : ℚ
  GCaL : ℚ
  V : Grid
  m : Grid
  h : Grid
  j : Grid
  xr : Grid
  xs : Grid
  d : Grid
  f : Grid
  fca : Grid
  Cai : Grid
  CaSR : Grid

/-- Embeds `LuoRudyModel::LuoRudyModel(width, height, dt)`: resting initial state
with the `normal` cell-type conductances, mask all false, time `0`. -/
def lrNew (W H : ℕ) (dtq : ℚ) : LRState :=
  { width := W, height := H, dt := dtq, time := 0, conductivity := 1,
    mi := fun _ _ => false,
    GNa := 23.0, Gsi := 0.09, GK := 0.282, GK1 := 0.6047,
    Gb := 0.03921, GCaL := 0.000175,
    V := fun _ _ => -84, m := zeroGrid, h := fun _ _ => 1, j := fun _ _ => 1,
    xr := zeroGrid, xs := zeroGrid, d := zeroGrid, f := fun _ _ => 1,
    fca := fun _ _ => 1, Cai := fun _ _ => 0.0002, CaSR := fun _ _ => 0.2 }

/-- Luo-Rudy `INa = GNa * m³ * h * j * (V - 54.4)`. -/
def lrINa (s : LRState) (x y : ℕ) : ℚ :=
  s.GNa * s.m x y * s.m x y * s.m x y * s.h x y * s.j x y * (s.V x y - 54.4)

/-- Luo-Rudy `ICaL = GCaL * d * f * fca * (V - 130)`. -/
def lrICaL (s : LRState) (x y : ℕ) : ℚ :=
  s.GCaL * s.d x y * s.f x y * s.fca x y * (s.V x y - 130)

/-- Luo-Rudy `IK = GK * xr * xs * (V + 77)`. -/
def lrIK (s : LRState) (x y : ℕ) : ℚ :=
  s.GK * s.xr x y * s.xs x y * (s.V x y - (-77))

/-- Luo-Rudy `IK1 = GK1 * (V + 77) / (1 + exp(0.07*(V + 80)))`. -/
def lrIK1 (rexp : ℚ → ℚ) (s : LRState) (x y : ℕ) : ℚ :=
  s.GK1 * (s.V x y - (-77)) / (1 + rexp (0.07 * (s.V x y + 80)))

/-- Luo-Rudy background current `Ib = Gb * (V + 59.87)`. -/
def lrIb (s : LRState) (x y : ℕ) : ℚ := s.Gb * (s.V x y + 59.87)

/-- Luo-Rudy T-type calcium current `ICaT = 0.0005 * d * (V - 130)`. -/
def lrICaT (s : LRState) (x y : ℕ) : ℚ := 0.0005 * s.d x y * (s.V x y - 130)

/-- Embeds `I_total` of `LuoRudyModel::step`: the sum of the six currents of
`calculateIonicCurrents`. -/
def lrITotal (rexp : ℚ → ℚ) (s : LRState) (x y : ℕ) : ℚ :=
  lrINa s x y + lrICaL s x y + lrIK s x y + lrIK1 rexp s x y
    + lrIb s x y + lrICaT s x y

/-- Gate rate `alpha_m = 0.32*(V+47.13) / (1 - exp(-0.1*(V+47.13)))`. -/
def alphaM (rexp : ℚ → ℚ) (Vv : ℚ) : ℚ :=
  0.32 * (Vv + 47.13) / (1 - rexp (-0.1 * (Vv + 47.13)))

/-- Gate rate `beta_m = 0.08 * exp(-V/11)`. -/
def betaM (rexp : ℚ → ℚ) (Vv : ℚ) : ℚ := 0.08 * rexp (-Vv / 11.0)

/-- Gate rate `alpha_h = 0.135 * exp(-(V+80)/6.8)`. -/
def alphaH (rexp : ℚ → ℚ) (Vv : ℚ) : ℚ := 0.135 * rexp (-(Vv + 80) / 6.8)

/-- Gate rate `beta_h = 3.56*exp(0.079*V) + 3.1e6*exp(0.35*V)`. -/
def betaH (rexp : ℚ → ℚ) (Vv : ℚ) : ℚ :=
  3.56 * rexp (0.079 * Vv) + 3.1e6 * rexp (0.35 * Vv)

/-- Gate rate `alpha_xr = 0.0005*exp(0.083*(V+50)) / (1 + exp(0.057*(V+50)))`. -/
def alphaXr (rexp : ℚ → ℚ) (Vv : ℚ) : ℚ :=
  0.0005 * rexp (0.083 * (Vv + 50)) / (1 + rexp (0.057 * (Vv + 50)))

/-- Gate rate `beta_xr = 0.0013*exp(-0.06*(V+20)) / (1 + exp(-0.04*(V+20)))`. -/
def betaXr (rexp : ℚ → ℚ) (Vv : ℚ) : ℚ :=
  0.0013 * rexp (-0.06 * (Vv + 20)) / (1 + rexp (-0.04 * (Vv + 20)))

/-- The clamp `Cai = std::max(0.0001, std::min(0.01, Cai))`. -/
def clampCai (q : ℚ) : ℚ := max 0.0001 (min 0.01 q)

/-- The `dV_dt` array of `LuoRudyModel::step`: zero-initialized, then filled
by the masked diffusion operator applied to `V_`. -/
def lrDiff (s : LRState) : Grid :=
  ceApplyDiffusion s.width s.height s.mi s.conductivity s.V zeroGrid

/-- Embeds `LuoRudyModel::step`: cells flagged in `mi_region_` copy `V` and skip all
updates (`continue`); every other cell gets
`V_new = V + (-(I_total + dV_dt) * dt)` and in-place forward-Euler updates of
`m`, `h`, `xr` and the clamped `Cai`, all rates evaluated at the pre-step
voltage.  Finally `V_ = V_new` and `time_ += dt_`. -/
def lrStep (rexp : ℚ → ℚ) (s : LRState) : LRState :=
  { s with
    V := fun x y =>
      if s.mi x y then s.V x y
      else s.V x y + (-(lrITotal rexp s x y + lrDiff s x y) * s.dt),
    m := fun x y =>
      if s.mi x y then s.m x y
      else s.m x y + s.dt * (alphaM rexp (s.V x y) * (1 - s.m x y)
                              - betaM rexp (s.V x y) * s.m x y),
    h := fun x y =>
      if s.mi x y then s.h x y
      else s.h x y + s.dt * (alphaH rexp (s.V x y) * (1 - s.h x y)
                              - betaH rexp (s.V x y) * s.h x y),
    xr := fun x y =>
      if s.mi x y then s.xr x y
      else s.xr x y + s.dt * (alphaXr rexp (s.V x y) * (1 - s.xr x y)
                               - betaXr rexp (s.V x y) * s.xr x y),
    Cai := fun x y =>
      if s.mi x y then s.Cai x y
      else clampCai (s.Cai x y
             + s.dt * 0.001 * (-(lrICaL s x y) - 0.0001 * s.Cai x y)),
    time := s.time + s.dt }

/-- Embeds `CardiacElectrophysiology::run(steps)` for the Luo-Rudy model. -/
def lrRun (rexp : ℚ → ℚ) : ℕ → LRState → LRState
  | 0, s => s
  | n+1, s => lrRun rexp n (lrStep rexp s)

/-! ## Ten Tusscher model -/

/-- The state owned by a `TenTusscherModel` object. -/
structure TTState where
  width : ℕ
  height : ℕ
  dt : ℚ
  time : ℚ
  conductivity : ℚ
  mi : BGrid
  GNa : ℚ
  GCaL : ℚ
  GKr : ℚ
  GKs : ℚ
  GK1 : ℚ
  Gto : ℚ
  GNaCa : ℚ
  GNaK : ℚ
  V : Grid
  m : Grid
  h : Grid
  j : Grid
  oa : Grid
  oi : Grid
  d : Grid
  f : Grid
  fca : Grid
  u : Grid
  v : Grid
  w : Grid
  Cai : Grid
  CaSR : Grid
  CaSS : Grid
  Nai : Grid
  Ki : Grid

/-- Embeds `TenTusscherModel::TenTusscherModel(width, height, dt)`: resting initial
state with the `epi` variant conductances, mask all false, time `0`. -/
def ttNew (W H : ℕ) (dtq : ℚ) : TTState :=
  { width := W, height := H, dt := dtq, time := 0, conductivity := 1,
    mi := fun _ _ => false,
    GNa := 75.0, GCaL := 0.000175, GKr := 0.046, GKs := 0.0034,
    GK1 := 0.1908, Gto := 0.294, GNaCa := 1000.0, GNaK := 1.362,
    V := fun _ _ => -86.2, m := zeroGrid, h := fun _ _ => 0.75,
    j := fun _ _ => 0.75, oa := zeroGrid, oi := fun _ _ => 1,
    d := zeroGrid, f := fun _ _ => 1, fca := fun _ _ => 1,
    u := zeroGrid, v := fun _ _ => 1, w := fun _ _ => 1,
    Cai := fun _ _ => 0.0002, CaSR := fun _ _ => 0.2,
    CaSS := fun _ _ => 0.0002, Nai := fun _ _ => 11.6, Ki := fun _ _ => 138.3 }

/-- Ten Tusscher `INa = GNa * m³ * h * j * (V - 54.4)`. -/
def ttINa (s : TTState) (x y : ℕ) : ℚ :=
  s.GNa * s.m x y * s.m x y * s.m x y * s.h x y * s.j x y * (s.V x y - 54.4)

/-- Ten Tusscher `ICaL = GCaL * d * f * fca * (V - 130)`. -/
def ttICaL (s : TTState) (x y : ℕ) : ℚ :=
  s.GCaL * s.d x y * s.f x y * s.fca x y * (s.V x y - 130)

/-- Ten Tusscher `IKr = GKr * sqrt(Ki/5.4) * u * (V + 77)`. -/
def ttIKr (rsqrt : ℚ → ℚ) (s : TTState) (x y : ℕ) : ℚ :=
  s.GKr * rsqrt (s.Ki x y / 5.4) * s.u x y * (s.V x y - (-77))

/-- Ten Tusscher `IKs = GKs * v * (V + 77)`. -/
def ttIKs (s : TTState) (x y : ℕ) : ℚ :=
  s.GKs * s.v x y * (s.V x y - (-77))

/-- Ten Tusscher `IK1 = GK1 * sqrt(Ki/5.4) * (V + 77) / (1 + exp(0.07*(V+80)))`. -/
def ttIK1 (rexp rsqrt : ℚ → ℚ) (s : TTState) (x y : ℕ) : ℚ :=
  s.GK1 * rsqrt (s.Ki x y / 5.4) * (s.V x y - (-77))
    / (1 + rexp (0.07 * (s.V x y + 80)))

/-- Ten Tusscher `Ito = Gto * oa * oi * (V + 77)`. -/
def ttIto (s : TTState) (x y : ℕ) : ℚ :=
  s.Gto * s.oa x y * s.oi x y * (s.V x y - (-77))

/-- Ten Tusscher exchanger current
`INaCa = GNaCa * (exp(0.03743*V)*Nai³*Cai - exp(-0.03743*V)*1.4) / (1 + 0.1*exp(-0.03743*V))`. -/
def ttINaCa (rexp : ℚ → ℚ) (s : TTState) (x y : ℕ) : ℚ :=
  s.GNaCa * (rexp (0.03743 * s.V x y) * s.Nai x y * s.Nai x y * s.Nai x y * s.Cai x y
              - rexp (-0.03743 * s.V x y) * 1.0 * 1.0 * 1.0 * 1.4)
    / (1 + 0.1 * rexp (-0.03743 * s.V x y))

/-- Ten Tusscher pump current `INaK = GNaK * Ki/(Ki+1) * Nai/(Nai+40)`. -/
def ttINaK (s : TTState) (x y : ℕ) : ℚ :=
  s.GNaK * s.Ki x y / (s.Ki x y + 1.0) * s.Nai x y / (s.Nai x y + 40.0)

/-- Embeds `I_total` of `TenTusscherModel::step`: the sum of the eight currents of
`calculateIonicCurrents`. -/
def ttITotal (rexp rsqrt : ℚ → ℚ) (s : TTState) (x y : ℕ) : ℚ :=
  ttINa s x y + ttICaL s x y + ttIKr rsqrt s x y + ttIKs s x y
    + ttIK1 rexp rsqrt s x y + ttIto s x y + ttINaCa rexp s x y + ttINaK s x y

/-- The `dV_dt` array of `TenTusscherModel::step`: zero-initialized, then
filled by the masked diffusion operator applied to `V_`. -/
def ttDiff (s : TTState) : Grid :=
  ceApplyDiffusion s.width s.height s.mi s.conductivity s.V zeroGrid

/-- Embeds `TenTusscherModel::step`: cells flagged in `mi_region_` copy `V` and skip
all updates; every other cell gets `V_new = V + (-(I_total + dV_dt) * dt)`
and in-place forward-Euler updates of `m`, `u` and the clamped `Cai`, rates
evaluated at the pre-step voltage.  Finally `V_ = V_new`, `time_ += dt_`. -/
def ttStep (rexp rsqrt : ℚ → ℚ) (s : TTState) : TTState :=
  { s with
    V := fun x y =>
      if s.mi x y then s.V x y
      else s.V x y + (-(ttITotal rexp rsqrt s x y + ttDiff s x y) * s.dt),
    m := fun x y =>
      if s.mi x y then s.m x y
      else s.m x y + s.dt * (alphaM rexp (s.V x y) * (1 - s.m x y)
                              - betaM rexp (s.V x y) * s.m x y),
    u := fun x y =>
      if s.mi x y then s.u x y
      else s.u x y + s.dt * (alphaXr rexp (s.V x y) * (1 - s.u x y)
                              - betaXr rexp (s.V x y) * s.u x y),
    Cai := fun x y =>
      if s.mi x y then s.Cai x y
      else clampCai (s.Cai x y
             + s.dt * 0.001 * (-(ttICaL s x y) - 0.0001 * s.Cai x y)),
    time := s.time + s.dt }

/-- Embeds `CardiacElectrophysiology::run(steps)` for the Ten Tusscher model. -/
def ttRun (rexp rsqrt : ℚ → ℚ) : ℕ → TTState → TTState
  | 0, s => s
  | n+1, s => ttRun rexp rsqrt n (ttStep rexp rsqrt s)

/-! ## Dimension validation of `setMIRegion` / `setInitialConditions`

Here raggedness of the incoming `std::vector<std::vector<...>>` matters, so
the argument is modelled as a list of rows of arbitrary lengths. -/

/-- The acceptance test of `CardiacElectrophysiology::setMIRegion`: the call
is rejected iff `mi_region.size() != height_` or
(`height_ > 0` and `mi_region[0].size() != width_`).  Only the row count and
the length of row 0 are inspected. -/
def miRegionAccepted (W H : ℕ) (rows : List (List Bool)) : Bool :=
  decide (rows.length = H ∧ (0 < H → (rows.headD []).length = W))

/-- The base-class members relevant to `setMIRegion`, with the mask kept as
the raw (possibly ragged) list of rows it was assigned from. -/
structure MaskEnv where
  width : ℕ
  height : ℕ
  mi_region : List (List Bool)

/-- Embeds `CardiacElectrophysiology::setMIRegion`: on acceptance the whole argument
(ragged rows included) is copied into `mi_region_`; otherwise no mutation. -/
def setMIRegion (e : MaskEnv) (rows : List (List Bool)) : MaskEnv :=
  if miRegionAccepted e.width e.height rows then { e with mi_region := rows } else e

/-- The acceptance test of `FitzHughNagumo::setInitialConditions`: rejected
iff `u_init.size() != height_` or `v_init.size() != height_` or
(`height_ > 0` and (`u_init[0].size() != width_` or `v_init[0].size() != width_`)). -/
def initCondAccepted (W H : ℕ) (us vs : List (List ℚ)) : Bool :=
  decide (us.length = H ∧ vs.length = H ∧
          (0 < H → (us.headD []).length = W ∧ (vs.headD []).length = W))

/-- The per-cell accesses performed after installation: both the copy loops of
`setInitialConditions` and the mask reads `mi_region_[y][x]` of `step` index
row `y` at every column `x` with `y < height_` and `x < width_`. -/
def loopReads (W H y x : ℕ) : Prop := y < H ∧ x < W

/-! ## Predicates and concrete instances used by the statements -/

/-- All in-bounds intracellular calcium values of a Luo-Rudy state lie in the
clamp interval `[1e-4, 1e-2]`. -/
def lrCaiRange (s : LRState) : Prop :=
  ∀ x, x < s.width → ∀ y, y < s.height →
    0.0001 ≤ s.Cai x y ∧ s.Cai x y ≤ 0.01

/-- All in-bounds intracellular calcium values of a Ten Tusscher state lie in
the clamp interval `[1e-4, 1e-2]`. -/
def ttCaiRange (s : TTState) : Prop :=
  ∀ x, x < s.width → ∀ y, y < s.height →
    0.0001 ≤ s.Cai x y ∧ s.Cai x y ≤ 0.01

/-- Two FitzHugh-Nagumo states agree on everything observable: dimensions,
time step, simulation time, parameters, diffusion coefficients, and all
field values. -/
def fhnObsEq (s1 s2 : FHNState) : Prop :=
  s1.width = s2.width ∧ s1.height = s2.height ∧ s1.dt = s2.dt ∧
  s1.time = s2.time ∧ s1.a = s2.a ∧ s1.b = s2.b ∧ s1.c = s2.c ∧
  s1.d = s2.d ∧ s1.du = s2.du ∧ s1.dv = s2.dv ∧
  (∀ x y, s1.u x y = s2.u x y) ∧ (∀ x y, s1.v x y = s2.v x y) ∧
  (∀ x y, s1.stim x y = s2.stim x y)

/-- Two Luo-Rudy states agree on everything observable: dimensions, time
step, simulation time, conductivity, mask, conductances, and all fields. -/
def lrObsEq (s1 s2 : LRState) : Prop :=
  s1.width = s2.width ∧ s1.height = s2.height ∧ s1.dt = s2.dt ∧
  s1.time = s2.time ∧ s1.conductivity = s2.conductivity ∧
  (∀ x y, s1.mi x y = s2.mi x y) ∧
  s1.GNa = s2.GNa ∧ s1.Gsi = s2.Gsi ∧ s1.GK = s2.GK ∧ s1.GK1 = s2.GK1 ∧
  s1.Gb = s2.Gb ∧ s1.GCaL = s2.GCaL ∧
  (∀ x y, s1.V x y = s2.V x y) ∧ (∀ x y, s1.m x y = s2.m x y) ∧
  (∀ x y, s1.h x y = s2.h x y) ∧ (∀ x y, s1.j x y = s2.j x y) ∧
  (∀ x y, s1.xr x y = s2.xr x y) ∧ (∀ x y, s1.xs x y = s2.xs x y) ∧
  (∀ x y, s1.d x y = s2.d x y) ∧ (∀ x y, s1.f x y = s2.f x y) ∧
  (∀ x y, s1.fca x y = s2.fca x y) ∧ (∀ x y, s1.Cai x y = s2.Cai x y) ∧
  (∀ x y, s1.CaSR x y = s2.CaSR x y)

/-- A concrete 3×3 FitzHugh-Nagumo model with `dt = 0.01` as constructed. -/
def ex3 : FHNState := fhnNew 3 3 (1/100)

/-- A 2×2 model whose simulation time has advanced to `5`. -/
def c1State : FHNState := { fhnNew 2 2 (1/100) with time := 5 }

/-- A state file recorded for a 3×2 grid (width mismatch against `c1State`)
with recorded time `9`. -/
def c1File : StateFile :=
  { fw := 3, fh := 2, ftime := 9, fa := 0, fb := 0, fc := 0, fd := 0,
    fdu := 0, fdv := 0, ftoks := [] }

/-- The 3×3 model after `addStimulus(1, 1, 5, 2)` followed by one `step`:
the step in which the claim allows the stimulus to act has already happened. -/
def c2After1 : FHNState := fhnStep (addStimulus (fhnNew 3 3 (1/100)) 1 1 5 2)

/-- A 1×1 model whose single `u` value `0.1234567` needs 7 significant
digits. -/
def c5State : FHNState :=
  { fhnNew 1 1 (1/100) with
    u := fun i jj => if i = 0 ∧ jj = 0 then 0.1234567 else 0 }

/-! ## Helper lemmas -/

theorem fhnStep_width (s : FHNState) : (fhnStep s).width = s.width := rfl

theorem fhnStep_height (s : FHNState) : (fhnStep s).height = s.height := rfl

theorem fhnStep_stim (s : FHNState) : (fhnStep s).stim = s.stim := rfl

theorem fhnRun_width (N : ℕ) (s : FHNState) : (fhnRun N s).width = s.width := by
  induction N generalizing s with
  | zero => rfl
  | succ n ih => exact (ih (fhnStep s)).trans (fhnStep_width s)

theorem fhnRun_height (N : ℕ) (s : FHNState) : (fhnRun N s).height = s.height := by
  induction N generalizing s with
  | zero => rfl
  | succ n ih => exact (ih (fhnStep s)).trans (fhnStep_height s)

theorem fhnRun_stim (N : ℕ) (s : FHNState) : (fhnRun N s).stim = s.stim := by
  induction N generalizing s with
  | zero => rfl
  | succ n ih => exact (ih (fhnStep s)).trans (fhnStep_stim s)

theorem lrStep_mi (rexp : ℚ → ℚ) (s : LRState) : (lrStep rexp s).mi = s.mi := rfl

theorem lrRun_mi (rexp : ℚ → ℚ) (N : ℕ) (s : LRState) :
    (lrRun rexp N s).mi = s.mi := by
  induction N generalizing s with
  | zero => rfl
  | succ n ih => exact (ih (lrStep rexp s)).trans (lrStep_mi rexp s)

theorem ttStep_mi (rexp rsqrt : ℚ → ℚ) (s : TTState) :
    (ttStep rexp rsqrt s).mi = s.mi := rfl

theorem ttRun_mi (rexp rsqrt : ℚ → ℚ) (N : ℕ) (s : TTState) :
    (ttRun rexp rsqrt N s).mi = s.mi := by
  induction N generalizing s with
  | zero => rfl
  | succ n ih => exact (ih (ttStep rexp rsqrt s)).trans (ttStep_mi rexp rsqrt s)

/-- A cell flagged in the mask receives a zero value from the masked
diffusion operator whenever the result array starts out zero: interior
flagged cells are written `0.0`, all other cells keep the initial zero. -/
theorem ceApplyDiffusion_scar_zero (W H : ℕ) (mi : BGrid) (cond : ℚ)
    (g : Grid) (x y : ℕ) (hm : mi x y = true) :
    ceApplyDiffusion W H mi cond g zeroGrid x y = 0 := by
  unfold ceApplyDiffusion
  by_cases hin : interiorCell W H x y
  · simp [hin, hm]
  · simp [hin, zeroGrid]

theorem lrStep_V_scar (rexp : ℚ → ℚ) (s : LRState) (x y : ℕ)
    (hm : s.mi x y = true) : (lrStep rexp s).V x y = s.V x y := by
  simp [lrStep, hm]

theorem ttStep_V_scar (rexp rsqrt : ℚ → ℚ) (s : TTState) (x y : ℕ)
    (hm : s.mi x y = true) : (ttStep rexp rsqrt s).V x y = s.V x y := by
  simp [ttStep, hm]

theorem lrRun_V_scar (rexp : ℚ → ℚ) (N : ℕ) (s : LRState) (x y : ℕ)
    (hm : s.mi x y = true) : (lrRun rexp N s).V x y = s.V x y := by
  induction N generalizing s with
  | zero => rfl
  | succ n ih =>
      have hm2 : (lrStep rexp s).mi x y = true := by rw [lrStep_mi]; exact hm
      exact (ih (lrStep rexp s) hm2).trans (lrStep_V_scar rexp s x y hm)

theorem ttRun_V_scar (rexp rsqrt : ℚ → ℚ) (N : ℕ) (s : TTState) (x y : ℕ)
    (hm : s.mi x y = true) : (ttRun rexp rsqrt N s).V x y = s.V x y := by
  induction N generalizing s with
  | zero => rfl
  | succ n ih =>
      have hm2 : (ttStep rexp rsqrt s).mi x y = true := by rw [ttStep_mi]; exact hm
      exact (ih (ttStep rexp rsqrt s) hm2).trans (ttStep_V_scar rexp rsqrt s x y hm)

/-! ## Claim theorems -/

/-- Claim C6: for the Simplified Excitable model with parameters `(a, b, c)`,
one step updates every cell by forward Euler with reaction terms
`du/dt = u - u³/3 - v + stimulus` and `dv/dt = (u + a - b*v)/c`:
`uNew = u + dt*(diffusionU + u - u³/3 - v + stimulus)` and
`vNew = v + dt*(diffusionV + (u + a - b*v)/c)`, all reads taken from the
pre-step buffer (every quantity on the right-hand side is a field of the
pre-step state `s`), and time advances by `dt`. -/
theorem fhn_step_euler_formula (s : FHNState) (x y : ℕ)
    (hx : x < s.width) (hy : y < s.height) :
    (fhnStep s).u x y
      = s.u x y + s.dt * (fhnDiffU s x y
          + (s.u x y - s.u x y * s.u x y * s.u x y / 3 - s.v x y + s.stim x y)) ∧
    (fhnStep s).v x y
      = s.v x y + s.dt * (fhnDiffV s x y + (s.u x y + s.a - s.b * s.v x y) / s.c) ∧
    (fhnStep s).time = s.time + s.dt :=
  ⟨rfl, rfl, rfl⟩

/-- Witness for C6 at the concrete 3×3 model and cell (1,1). -/
theorem fhn_step_euler_formula_witness :
    (fhnStep ex3).u 1 1
      = ex3.u 1 1 + ex3.dt * (fhnDiffU ex3 1 1
          + (ex3.u 1 1 - ex3.u 1 1 * ex3.u 1 1 * ex3.u 1 1 / 3 - ex3.v 1 1
             + ex3.stim 1 1)) ∧
    (fhnStep ex3).v 1 1
      = ex3.v 1 1 + ex3.dt * (fhnDiffV ex3 1 1
          + (ex3.u 1 1 + ex3.a - ex3.b * ex3.v 1 1) / ex3.c) ∧
    (fhnStep ex3).time = ex3.time + ex3.dt :=
  fhn_step_euler_formula ex3 1 1 (by decide) (by decide)

/-- Claim C4: `applyDiffusion` writes `coeff * (N+S+E+W - 4*center)` at every
interior cell not flagged in the tissue mask, writes zero at flagged interior
cells, and leaves the outermost ring of the result unmodified; when `W < 3`
or `H < 3` there are no interior cells and nothing is modified; a zero
diffusion coefficient yields a zero diffusion contribution everywhere
(for the masked base-class operator by writing `0 * laplacian = 0`, and for
the FitzHugh-Nagumo step by skipping the operator via the `du_ > 0` /
`dv_ > 0` guards, leaving the zero-initialized derivative arrays). -/
theorem applyDiffusion_stencil_spec (W H : ℕ) (mi : BGrid) (cq : ℚ)
    (g res : Grid) (x y : ℕ) (s : FHNState) :
    (interiorCell W H x y → mi x y = false →
      ceApplyDiffusion W H mi cq g res x y
        = cq * (g x (y-1) + g x (y+1) + g (x-1) y + g (x+1) y - 4 * g x y)) ∧
    (interiorCell W H x y → mi x y = true →
      ceApplyDiffusion W H mi cq g res x y = 0) ∧
    (interiorCell W H x y →
      fhnApplyDiffusion W H cq g res x y
        = cq * (g x (y-1) + g x (y+1) + g (x-1) y + g (x+1) y - 4 * g x y)) ∧
    (¬ interiorCell W H x y →
      ceApplyDiffusion W H mi cq g res x y = res x y ∧
      fhnApplyDiffusion W H cq g res x y = res x y) ∧
    (W < 3 ∨ H < 3 → ¬ interiorCell W H x y) ∧
    ceApplyDiffusion W H mi 0 g zeroGrid x y = 0 ∧
    fhnApplyDiffusion W H 0 g zeroGrid x y = 0 ∧
    (s.du ≤ 0 → fhnDiffU s x y = 0) ∧
    (s.dv ≤ 0 → fhnDiffV s x y = 0) := by
  refine ⟨?_, ?_, ?_, ?_, ?_, ?_, ?_, ?_, ?_⟩
  · intro hin hm; simp [ceApplyDiffusion, hin, hm]
  · intro hin hm; simp [ceApplyDiffusion, hin, hm]
  · intro hin; simp [fhnApplyDiffusion, hin]
  · intro hin; exact ⟨by simp [ceApplyDiffusion, hin], by simp [fhnApplyDiffusion, hin]⟩
  · intro hsm hin; unfold interiorCell at hin; omega
  · unfold ceApplyDiffusion
    by_cases hin : interiorCell W H x y
    · by_cases hm : mi x y <;> simp [hin, hm]
    · simp [hin, zeroGrid]
  · unfold fhnApplyDiffusion
    by_cases hin : interiorCell W H x y <;> simp [hin, zeroGrid]
  · intro hdu
    have : ¬ s.du > 0 := by exact not_lt.mpr hdu
    simp [fhnDiffU, this, zeroGrid]
  · intro hdv
    have : ¬ s.dv > 0 := by exact not_lt.mpr hdv
    simp [fhnDiffV, this, zeroGrid]

/-- Witness for C4 at a concrete 4×4 grid with cell (1,2) flagged: the
unflagged interior cell (1,1) receives the stencil value, the flagged
interior cell (1,2) receives zero, the ring cell (0,1) is left unmodified,
and a 2×4 grid has no interior cell. -/
theorem applyDiffusion_stencil_spec_witness :
    (let mi : BGrid := fun i jj => decide (i = 1 ∧ jj = 2)
     let g : Grid := fun i jj => (i : ℚ) + 10 * (jj : ℚ)
     let res : Grid := fun _ _ => 7
     ceApplyDiffusion 4 4 mi 2 g res 1 1
       = 2 * (g 1 0 + g 1 2 + g 0 1 + g 2 1 - 4 * g 1 1) ∧
     ceApplyDiffusion 4 4 mi 2 g res 1 2 = 0 ∧
     ceApplyDiffusion 4 4 mi 2 g res 0 1 = res 0 1 ∧
     ¬ interiorCell 2 4 1 1 ∧
     (fhnDiffV ex3 1 1 = 0)) := by
  refine ⟨?_, ?_, ?_, ?_, ?_⟩
  · exact (applyDiffusion_stencil_spec 4 4 _ 2 _ _ 1 1 ex3).1 (by decide) (by decide)
  · exact (applyDiffusion_stencil_spec 4 4 _ 2 _ _ 1 2 ex3).2.1 (by decide) (by decide)
  · exact ((applyDiffusion_stencil_spec 4 4 _ 2 _ _ 0 1 ex3).2.2.2.1 (by decide)).1
  · exact (applyDiffusion_stencil_spec 2 4 (fun _ _ => false) 2 zeroGrid zeroGrid 1 1
      ex3).2.2.2.2.1 (Or.inl (by decide))
  · exact (applyDiffusion_stencil_spec 3 3 (fun _ _ => false) 2 zeroGrid zeroGrid 1 1
      ex3).2.2.2.2.2.2.2.2 (by decide)

/-- Claim C3: under both reaction-model variants that carry a tissue mask
(Luo-Rudy and Ten Tusscher; the Simplified Excitable class has no mask, for
it the claim is vacuous), for every cell flagged in the mask and every number
of steps `N`, the potential of the cell after `N` steps equals its value at
the moment the mask held (the reaction update is skipped, the prior value
retained exactly), and the diffusion contribution computed for that cell in
any step is zero. -/
theorem scar_cells_frozen (rexp rsqrt : ℚ → ℚ) (sl : LRState) (st : TTState)
    (x y N : ℕ) (hl : sl.mi x y = true) (ht : st.mi x y = true) :
    ((lrRun rexp N sl).V x y = sl.V x y ∧
     lrDiff (lrRun rexp N sl) x y = 0) ∧
    ((ttRun rexp rsqrt N st).V x y = st.V x y ∧
     ttDiff (ttRun rexp rsqrt N st) x y = 0) := by
  have hlm : (lrRun rexp N sl).mi x y = true := by rw [lrRun_mi]; exact hl
  have htm : (ttRun rexp rsqrt N st).mi x y = true := by rw [ttRun_mi]; exact ht
  exact ⟨⟨lrRun_V_scar rexp N sl x y hl,
          ceApplyDiffusion_scar_zero _ _ _ _ _ x y hlm⟩,
         ⟨ttRun_V_scar rexp rsqrt N st x y ht,
          ceApplyDiffusion_scar_zero _ _ _ _ _ x y htm⟩⟩

/-- Witness for C3: 3×3 Luo-Rudy and Ten Tusscher models with cell (1,1)
flagged as scar, run for 5 steps with `exp` and `sqrt` interpreted as the
identity. -/
theorem scar_cells_frozen_witness :
    (let sl : LRState := { lrNew 3 3 (1/100) with mi := fun i jj => decide (i = 1 ∧ jj = 1) }
     let st : TTState := { ttNew 3 3 (1/100) with mi := fun i jj => decide (i = 1 ∧ jj = 1) }
     ((lrRun id 5 sl).V 1 1 = sl.V 1 1 ∧ lrDiff (lrRun id 5 sl) 1 1 = 0) ∧
     ((ttRun id id 5 st).V 1 1 = st.V 1 1 ∧ ttDiff (ttRun id id 5 st) 1 1 = 0)) :=
  scar_cells_frozen id id _ _ 1 1 5 (by decide) (by decide)

theorem clampCai_mem (q : ℚ) : 0.0001 ≤ clampCai q ∧ clampCai q ≤ 0.01 := by
  unfold clampCai
  constructor
  · exact le_max_left _ _
  · exact max_le (by norm_num) (min_le_left _ _)

theorem lrStep_CaiRange (rexp : ℚ → ℚ) (s : LRState) (hs : lrCaiRange s) :
    lrCaiRange (lrStep rexp s) := by
  intro x hx y hy
  have hx2 : x < s.width := hx
  have hy2 : y < s.height := hy
  show 0.0001 ≤ (lrStep rexp s).Cai x y ∧ (lrStep rexp s).Cai x y ≤ 0.01
  by_cases hm : s.mi x y
  · have : (lrStep rexp s).Cai x y = s.Cai x y := by simp [lrStep, hm]
    rw [this]; exact hs x hx2 y hy2
  · have : (lrStep rexp s).Cai x y
        = clampCai (s.Cai x y + s.dt * 0.001 * (-(lrICaL s x y) - 0.0001 * s.Cai x y)) := by
      simp [lrStep, hm]
    rw [this]; exact clampCai_mem _

theorem ttStep_CaiRange (rexp rsqrt : ℚ → ℚ) (s : TTState) (hs : ttCaiRange s) :
    ttCaiRange (ttStep rexp rsqrt s) := by
  intro x hx y hy
  have hx2 : x < s.width := hx
  have hy2 : y < s.height := hy
  show 0.0001 ≤ (ttStep rexp rsqrt s).Cai x y ∧ (ttStep rexp rsqrt s).Cai x y ≤ 0.01
  by_cases hm : s.mi x y
  · have : (ttStep rexp rsqrt s).Cai x y = s.Cai x y := by simp [ttStep, hm]
    rw [this]; exact hs x hx2 y hy2
  · have : (ttStep rexp rsqrt s).Cai x y
        = clampCai (s.Cai x y + s.dt * 0.001 * (-(ttICaL s x y) - 0.0001 * s.Cai x y)) := by
      simp [ttStep, hm]
    rw [this]; exact clampCai_mem _

theorem lrRun_CaiRange (rexp : ℚ → ℚ) (N : ℕ) (s : LRState) (hs : lrCaiRange s) :
    lrCaiRange (lrRun rexp N s) := by
  induction N generalizing s with
  | zero => exact hs
  | succ n ih => exact ih (lrStep rexp s) (lrStep_CaiRange rexp s hs)

theorem ttRun_CaiRange (rexp rsqrt : ℚ → ℚ) (N : ℕ) (s : TTState) (hs : ttCaiRange s) :
    ttCaiRange (ttRun rexp rsqrt N s) := by
  induction N generalizing s with
  | zero => exact hs
  | succ n ih => exact ih (ttStep rexp rsqrt s) (ttStep_CaiRange rexp rsqrt s hs)

theorem lrNew_CaiRange (W H : ℕ) (dtq : ℚ) : lrCaiRange (lrNew W H dtq) := by
  intro x _ y _
  constructor <;> norm_num [lrNew]

theorem ttNew_CaiRange (W H : ℕ) (dtq : ℚ) : ttCaiRange (ttNew W H dtq) := by
  intro x _ y _
  constructor <;> norm_num [ttNew]

/-- Claim C7: in both detailed ionic variants the intracellular calcium of
every in-bounds cell lies in `[1e-4, 1e-2]` after construction and after
every step: the constructed states satisfy the bound, and any state
satisfying it still satisfies it after any number of steps — non-scar cells
because the update is clamped into the interval, scar cells because they
retain their prior in-range value. -/
theorem cai_concentration_clamped (rexp rsqrt : ℚ → ℚ) (W H : ℕ) (dtq : ℚ)
    (N : ℕ) (sl : LRState) (st : TTState)
    (hl : lrCaiRange sl) (ht : ttCaiRange st) :
    lrCaiRange (lrNew W H dtq) ∧ ttCaiRange (ttNew W H dtq) ∧
    lrCaiRange (lrRun rexp N sl) ∧ ttCaiRange (ttRun rexp rsqrt N st) :=
  ⟨lrNew_CaiRange W H dtq, ttNew_CaiRange W H dtq,
   lrRun_CaiRange rexp N sl hl, ttRun_CaiRange rexp rsqrt N st ht⟩

/-- Witness for C7: freshly constructed 2×2 models (with a scar cell flagged
at (0,0) in each) run for 3 steps under the identity interpretation of `exp`
and `sqrt`. -/
theorem cai_concentration_clamped_witness :
    lrCaiRange (lrNew 2 2 1) ∧ ttCaiRange (ttNew 2 2 1) ∧
    lrCaiRange (lrRun id 3 { lrNew 2 2 1 with mi := fun i jj => decide (i = 0 ∧ jj = 0) }) ∧
    ttCaiRange (ttRun id id 3 { ttNew 2 2 1 with mi := fun i jj => decide (i = 0 ∧ jj = 0) }) :=
  cai_concentration_clamped id id 2 2 1 3 _ _
    (by intro x _ y _; constructor <;> norm_num [lrNew])
    (by intro x _ y _; constructor <;> norm_num [ttNew])

theorem fhnObsEq_eq (s1 s2 : FHNState) (hobs : fhnObsEq s1 s2) : s1 = s2 := by
  obtain ⟨h1, h2, h3, h4, h5, h6, h7, h8, h9, h10, h11, h12, h13⟩ := hobs
  cases s1; cases s2
  simp only [FHNState.mk.injEq]
  refine ⟨h1, h2, h3, h4, h5, h6, h7, h8, h9, h10, ?_, ?_, ?_⟩ <;>
    (funext i jj; first | exact h11 i jj | exact h12 i jj | exact h13 i jj)

theorem lrObsEq_eq (s1 s2 : LRState) (hobs : lrObsEq s1 s2) : s1 = s2 := by
  obtain ⟨h1, h2, h3, h4, h5, h6, h7, h8, h9, h10, h11, h12, h13, h14, h15,
          h16, h17, h18, h19, h20, h21, h22, h23⟩ := hobs
  cases s1; cases s2
  simp only [LRState.mk.injEq]
  refine ⟨h1, h2, h3, h4, h5, ?_, h7, h8, h9, h10, h11, h12,
          ?_, ?_, ?_, ?_, ?_, ?_, ?_, ?_, ?_, ?_, ?_⟩ <;>
    (funext i jj;
     first | exact h6 i jj | exact h13 i jj | exact h14 i jj | exact h15 i jj
           | exact h16 i jj | exact h17 i jj | exact h18 i jj | exact h19 i jj
           | exact h20 i jj | exact h21 i jj | exact h22 i jj | exact h23 i jj)

/-- Claim C8: two runs started from observably identical states (identical
field values, parameters, mask, diffusion conductivity, time step, and start
time) with the same step count produce numerically identical final fields and
simulation time — `step` and `run(N)` are deterministic functions of the
model state, with the library `exp` fixed as an arbitrary but shared
interpretation `rexp`. -/
theorem run_deterministic (rexp : ℚ → ℚ) (N : ℕ) (s1 s2 : FHNState)
    (t1 t2 : LRState) (hf : fhnObsEq s1 s2) (hl : lrObsEq t1 t2) :
    ((∀ x y, (fhnRun N s1).u x y = (fhnRun N s2).u x y) ∧
     (∀ x y, (fhnRun N s1).v x y = (fhnRun N s2).v x y) ∧
     (fhnRun N s1).time = (fhnRun N s2).time) ∧
    ((∀ x y, (lrRun rexp N t1).V x y = (lrRun rexp N t2).V x y) ∧
     (∀ x y, (lrRun rexp N t1).Cai x y = (lrRun rexp N t2).Cai x y) ∧
     (lrRun rexp N t1).time = (lrRun rexp N t2).time) := by
  have hfe : s1 = s2 := fhnObsEq_eq s1 s2 hf
  have hle : t1 = t2 := lrObsEq_eq t1 t2 hl
  subst hfe; subst hle
  exact ⟨⟨fun _ _ => rfl, fun _ _ => rfl, rfl⟩, ⟨fun _ _ => rfl, fun _ _ => rfl, rfl⟩⟩

/-- Witness for C8: two syntactically independent but value-identical copies
of the 3×3 FitzHugh-Nagumo state and of a 2×2 Luo-Rudy state, run 4 steps. -/
theorem run_deterministic_witness :
    ((∀ x y, (fhnRun 4 (fhnNew 3 3 (1/100))).u x y = (fhnRun 4 ex3).u x y) ∧
     (∀ x y, (fhnRun 4 (fhnNew 3 3 (1/100))).v x y = (fhnRun 4 ex3).v x y) ∧
     (fhnRun 4 (fhnNew 3 3 (1/100))).time = (fhnRun 4 ex3).time) ∧
    ((∀ x y, (lrRun id 4 (lrNew 2 2 (1/100))).V x y = (lrRun id 4 (lrNew 2 2 (1/100))).V x y) ∧
     (∀ x y, (lrRun id 4 (lrNew 2 2 (1/100))).Cai x y = (lrRun id 4 (lrNew 2 2 (1/100))).Cai x y) ∧
     (lrRun id 4 (lrNew 2 2 (1/100))).time = (lrRun id 4 (lrNew 2 2 (1/100))).time) :=
  run_deterministic id 4 (fhnNew 3 3 (1/100)) ex3 (lrNew 2 2 (1/100)) (lrNew 2 2 (1/100))
    ⟨rfl, rfl, rfl, rfl, rfl, rfl, rfl, rfl, rfl, rfl,
     fun _ _ => rfl, fun _ _ => rfl, fun _ _ => rfl⟩
    ⟨rfl, rfl, rfl, rfl, rfl, fun _ _ => rfl, rfl, rfl, rfl, rfl, rfl, rfl,
     fun _ _ => rfl, fun _ _ => rfl, fun _ _ => rfl, fun _ _ => rfl,
     fun _ _ => rfl, fun _ _ => rfl, fun _ _ => rfl, fun _ _ => rfl,
     fun _ _ => rfl, fun _ _ => rfl, fun _ _ => rfl⟩

/-- Claim C9: the dimension validation of `setMIRegion` and of
`setInitialConditions` inspects only the number of rows and the length of
row 0.  Every input whose row count equals the grid height and whose row 0
has length equal to the grid width is accepted — and, for `setMIRegion`,
installed wholesale — even when a later row has a different length; when a
later row is shorter than the width, the per-cell loops that follow (the
mask reads of `step`, the copy loops of `setInitialConditions`) index that
row at a column at or past its end. -/
theorem dimension_check_row0_only (W H : ℕ) (e : MaskEnv)
    (rows : List (List Bool)) (us vs : List (List ℚ))
    (hw : e.width = W) (hh : e.height = H) :
    (rows.length = H → (0 < H → (rows.headD []).length = W) →
      miRegionAccepted W H rows = true ∧
      setMIRegion e rows = { e with mi_region := rows }) ∧
    (us.length = H → vs.length = H →
      (0 < H → (us.headD []).length = W ∧ (vs.headD []).length = W) →
      initCondAccepted W H us vs = true) ∧
    (∀ y, y < H → (rows.getD y []).length < W →
      ∃ x, loopReads W H y x ∧ (rows.getD y []).length ≤ x) := by
  refine ⟨?_, ?_, ?_⟩
  · intro hlen h0
    have hacc : miRegionAccepted W H rows = true := by
      unfold miRegionAccepted
      exact decide_eq_true ⟨hlen, h0⟩
    refine ⟨hacc, ?_⟩
    unfold setMIRegion
    rw [hw, hh, hacc]
    simp
  · intro hu hv h0
    unfold initCondAccepted
    exact decide_eq_true ⟨hu, hv, h0⟩
  · intro y hy hshort
    exact ⟨(rows.getD y []).length, ⟨hy, hshort⟩, le_refl _⟩

/-- Witness for C9: a 2×2 grid with the ragged mask `[[a,b],[c]]` (row 1 has
length 1 < 2) is accepted and installed, and the loops read row 1 at column
1, one past its end; ragged initial conditions pass the check as well. -/
theorem dimension_check_row0_only_witness :
    (miRegionAccepted 2 2 [[true, false], [true]] = true ∧
     setMIRegion ⟨2, 2, []⟩ [[true, false], [true]]
       = { (⟨2, 2, []⟩ : MaskEnv) with mi_region := [[true, false], [true]] }) ∧
    initCondAccepted 2 2 [[1, 2], [3]] [[4, 5], [6, 7]] = true ∧
    (∃ x, loopReads 2 2 1 x ∧ (([[true, false], [true]] : List (List Bool)).getD 1 []).length ≤ x) := by
  have base := dimension_check_row0_only 2 2 ⟨2, 2, []⟩
    [[true, false], [true]] [[1, 2], [3]] [[4, 5], [6, 7]] rfl rfl
  exact ⟨base.1 (by decide) (by decide),
         base.2.1 (by decide) (by decide) (by decide),
         base.2.2 1 (by decide) (by decide)⟩

/-- Claim C10: in the masked diffusion operator the tissue mask zeroes only
the diffusion contribution of the flagged cell itself.  At a non-scar
interior cell the five-point Laplacian is computed from the stored values of
all four neighbours with no test of their flags, so for two fields that agree
everywhere except at a flagged neighbouring cell the results at the non-scar
cell differ by exactly `coeff` times the difference of the stored scar
values — scar values continue to influence the diffusion terms of their
neighbours. -/
theorem scar_value_in_neighbor_stencil (W H : ℕ) (mi : BGrid) (cq : ℚ)
    (g1 g2 res : Grid) (x y : ℕ)
    (hin : interiorCell W H x y) (hm : mi x y = false) :
    ceApplyDiffusion W H mi cq g1 res x y
      = cq * (g1 x (y-1) + g1 x (y+1) + g1 (x-1) y + g1 (x+1) y - 4 * g1 x y) ∧
    (mi x (y+1) = true →
      (∀ i jj, ¬(i = x ∧ jj = y + 1) → g1 i jj = g2 i jj) →
      ceApplyDiffusion W H mi cq g1 res x y
          - ceApplyDiffusion W H mi cq g2 res x y
        = cq * (g1 x (y+1) - g2 x (y+1))) := by
  constructor
  · simp [ceApplyDiffusion, hin, hm]
  · intro _ hagree
    have hy1 : 1 ≤ y := hin.2.2.1
    have e1 : g1 x (y-1) = g2 x (y-1) := hagree x (y-1) (by omega)
    have e2 : g1 (x-1) y = g2 (x-1) y := hagree (x-1) y (by omega)
    have e3 : g1 (x+1) y = g2 (x+1) y := hagree (x+1) y (by omega)
    have e4 : g1 x y = g2 x y := hagree x y (by omega)
    simp only [ceApplyDiffusion, if_pos hin, hm, Bool.false_eq_true, if_false]
    rw [e1, e2, e3, e4]
    ring

/-- Witness for C10: a 3×4 grid, scar cell (1,2) flagged, non-scar interior
cell (1,1) beneath it; two fields that differ only in the stored value of the
scar cell produce diffusion contributions at (1,1) that differ by exactly
`coeff` times the difference of the scar values. -/
theorem scar_value_in_neighbor_stencil_witness :
    (let mi : BGrid := fun i jj => decide (i = 1 ∧ jj = 2)
     let g1 : Grid := fun i jj => if i = 1 ∧ jj = 2 then 30 else (i : ℚ) + (jj : ℚ)
     let g2 : Grid := fun i jj => if i = 1 ∧ jj = 2 then 50 else (i : ℚ) + (jj : ℚ)
     ceApplyDiffusion 3 4 mi 2 g1 zeroGrid 1 1
       = 2 * (g1 1 0 + g1 1 2 + g1 0 1 + g1 2 1 - 4 * g1 1 1) ∧
     ceApplyDiffusion 3 4 mi 2 g1 zeroGrid 1 1
         - ceApplyDiffusion 3 4 mi 2 g2 zeroGrid 1 1
       = 2 * (g1 1 2 - g2 1 2)) := by
  refine ⟨?_, ?_⟩
  · exact (scar_value_in_neighbor_stencil 3 4 (fun i jj => decide (i = 1 ∧ jj = 2)) 2
      (fun i jj => if i = 1 ∧ jj = 2 then 30 else (i : ℚ) + (jj : ℚ))
      (fun i jj => if i = 1 ∧ jj = 2 then 50 else (i : ℚ) + (jj : ℚ))
      zeroGrid 1 1 (by decide) (by decide)).1
  · exact (scar_value_in_neighbor_stencil 3 4 (fun i jj => decide (i = 1 ∧ jj = 2)) 2
      (fun i jj => if i = 1 ∧ jj = 2 then 30 else (i : ℚ) + (jj : ℚ))
      (fun i jj => if i = 1 ∧ jj = 2 then 50 else (i : ℚ) + (jj : ℚ))
      zeroGrid 1 1 (by decide) (by decide)).2 (by decide)
      (by intro i jj hne
          have hne2 : ¬(i = 1 ∧ jj = 2) := by omega
          simp [hne2])

/-- Claim C1 counterexample: `loadState` on a file whose recorded width (3)
differs from the live 2×2 grid returns `false`, yet the simulation time has
been overwritten with the time recorded in the file (`9` instead of the
prior `5`): the header read `file >> file_width >> file_height >> time_`
mutates `time_` before the dimension check runs, so the state is not exactly
what it was before the call. -/
theorem loadState_mutates_time_on_mismatch :
    (loadState c1State c1File).1 = false ∧
    (loadState c1State c1File).2.time ≠ c1State.time := by
  constructor
  · rfl
  · decide

/-- Claim C1 (amended): on a dimension mismatch `loadState` returns `false`
leaving parameters, diffusion coefficients, and both fields untouched, but
with the simulation time already overwritten by the value recorded in the
file; on a field-data parse failure (token stream too short) it returns
`false` with the simulation time, parameters, and diffusion coefficients all
already overwritten from the file. -/
theorem loadState_failure_partial_mutation (s : FHNState) (fl : StateFile) :
    (¬(fl.fw = s.width ∧ fl.fh = s.height) →
      loadState s fl = (false, { s with time := fl.ftime })) ∧
    (fl.fw = s.width → fl.fh = s.height →
      fl.ftoks.length < 2 * (s.width * s.height) →
      (loadState s fl).1 = false ∧
      (loadState s fl).2.time = fl.ftime ∧
      (loadState s fl).2.a = fl.fa ∧ (loadState s fl).2.b = fl.fb ∧
      (loadState s fl).2.c = fl.fc ∧ (loadState s fl).2.d = fl.fd ∧
      (loadState s fl).2.du = fl.fdu ∧ (loadState s fl).2.dv = fl.fdv) := by
  constructor
  · intro hne
    unfold loadState
    rw [if_neg hne]
  · intro hw hh hlen
    have hdim : fl.fw = s.width ∧ fl.fh = s.height := ⟨hw, hh⟩
    have hnot : ¬ (2 * (s.width * s.height) ≤ fl.ftoks.length) := by omega
    unfold loadState
    rw [if_pos hdim, if_neg hnot]
    by_cases hone : s.width * s.height ≤ fl.ftoks.length
    · rw [if_pos hone]
      exact ⟨rfl, rfl, rfl, rfl, rfl, rfl, rfl, rfl⟩
    · rw [if_neg hone]
      exact ⟨rfl, rfl, rfl, rfl, rfl, rfl, rfl, rfl⟩

/-- Witness for the amended C1 at the concrete mismatching pair, and at a
matching 2×2 pair whose token stream holds only 3 of the 8 required field
values. -/
theorem loadState_failure_partial_mutation_witness :
    loadState c1State c1File = (false, { c1State with time := c1File.ftime }) ∧
    ((loadState (fhnNew 2 2 (1/100))
        { c1File with fw := 2, ftoks := [1, 2, 3] }).1 = false ∧
     (loadState (fhnNew 2 2 (1/100))
        { c1File with fw := 2, ftoks := [1, 2, 3] }).2.time
       = ({ c1File with fw := 2, ftoks := [1, 2, 3] } : StateFile).ftime ∧
     (loadState (fhnNew 2 2 (1/100))
        { c1File with fw := 2, ftoks := [1, 2, 3] }).2.a
       = ({ c1File with fw := 2, ftoks := [1, 2, 3] } : StateFile).fa ∧
     (loadState (fhnNew 2 2 (1/100))
        { c1File with fw := 2, ftoks := [1, 2, 3] }).2.b
       = ({ c1File with fw := 2, ftoks := [1, 2, 3] } : StateFile).fb ∧
     (loadState (fhnNew 2 2 (1/100))
        { c1File with fw := 2, ftoks := [1, 2, 3] }).2.c
       = ({ c1File with fw := 2, ftoks := [1, 2, 3] } : StateFile).fc ∧
     (loadState (fhnNew 2 2 (1/100))
        { c1File with fw := 2, ftoks := [1, 2, 3] }).2.d
       = ({ c1File with fw := 2, ftoks := [1, 2, 3] } : StateFile).fd ∧
     (loadState (fhnNew 2 2 (1/100))
        { c1File with fw := 2, ftoks := [1, 2, 3] }).2.du
       = ({ c1File with fw := 2, ftoks := [1, 2, 3] } : StateFile).fdu ∧
     (loadState (fhnNew 2 2 (1/100))
        { c1File with fw := 2, ftoks := [1, 2, 3] }).2.dv
       = ({ c1File with fw := 2, ftoks := [1, 2, 3] } : StateFile).fdv) :=
  ⟨(loadState_failure_partial_mutation c1State c1File).1 (by decide),
   (loadState_failure_partial_mutation (fhnNew 2 2 (1/100))
      { c1File with fw := 2, ftoks := [1, 2, 3] }).2 (by decide) (by decide) (by decide)⟩

/-- Claim C2 counterexample: after `addStimulus(1, 1, 5, 2)` and one step
(state `c2After1`), the stimulus value is still stored, and the next step
does not compute the reaction term of cell (1,1) as if no stimulus had been
set: the updated `u` differs from the no-stimulus Euler update.  `step`
never clears `stimulus_`, so the stimulus is not limited to the single step
following the call. -/
theorem stimulus_not_single_step :
    c2After1.stim 1 1 = 5 ∧
    (fhnStep c2After1).u 1 1
      ≠ c2After1.u 1 1 + c2After1.dt * (fhnDiffU c2After1 1 1
          + reactionU (c2After1.u 1 1) (c2After1.v 1 1) 0) := by
  constructor
  · rfl
  · norm_num [fhnStep, c2After1, addStimulus, fhnNew, fhnDiffU, fhnDiffV,
      fhnApplyDiffusion, reactionU, reactionV, zeroGrid, interiorCell]

/-- Claim C2 (amended): a stimulus set by `addStimulus(x, y, strength,
duration)` at in-range coordinates contributes its strength to the reaction
term `du/dt` of cell `(x,y)` in the step following the call and in every
later step: the stored stimulus survives any number of steps unchanged, and
each step adds the stored strength to the reaction term of the cell. -/
theorem stimulus_persists_every_step (s : FHNState) (x y : ℕ)
    (strength dur : ℚ) (N : ℕ) (hx : x < s.width) (hy : y < s.height) :
    (fhnRun N (addStimulus s x y strength dur)).stim x y = strength ∧
    (fhnStep (fhnRun N (addStimulus s x y strength dur))).u x y
      = (fhnRun N (addStimulus s x y strength dur)).u x y
        + (fhnRun N (addStimulus s x y strength dur)).dt
          * (fhnDiffU (fhnRun N (addStimulus s x y strength dur)) x y
             + reactionU ((fhnRun N (addStimulus s x y strength dur)).u x y)
                 ((fhnRun N (addStimulus s x y strength dur)).v x y) strength) := by
  have hset : (addStimulus s x y strength dur).stim x y = strength := by
    unfold addStimulus
    rw [if_pos ⟨hx, hy⟩]
    simp
  have hpers : (fhnRun N (addStimulus s x y strength dur)).stim x y = strength := by
    rw [fhnRun_stim]; exact hset
  refine ⟨hpers, ?_⟩
  have hstep : (fhnStep (fhnRun N (addStimulus s x y strength dur))).u x y
      = (fhnRun N (addStimulus s x y strength dur)).u x y
        + (fhnRun N (addStimulus s x y strength dur)).dt
          * (fhnDiffU (fhnRun N (addStimulus s x y strength dur)) x y
             + reactionU ((fhnRun N (addStimulus s x y strength dur)).u x y)
                 ((fhnRun N (addStimulus s x y strength dur)).v x y)
                 ((fhnRun N (addStimulus s x y strength dur)).stim x y)) := rfl
  rw [hstep, hpers]

/-- Witness for the amended C2: the 3×3 model, stimulus of strength 5 at
cell (1,1), after 3 further steps. -/
theorem stimulus_persists_every_step_witness :
    (fhnRun 3 (addStimulus ex3 1 1 5 2)).stim 1 1 = 5 ∧
    (fhnStep (fhnRun 3 (addStimulus ex3 1 1 5 2))).u 1 1
      = (fhnRun 3 (addStimulus ex3 1 1 5 2)).u 1 1
        + (fhnRun 3 (addStimulus ex3 1 1 5 2)).dt
          * (fhnDiffU (fhnRun 3 (addStimulus ex3 1 1 5 2)) 1 1
             + reactionU ((fhnRun 3 (addStimulus ex3 1 1 5 2)).u 1 1)
                 ((fhnRun 3 (addStimulus ex3 1 1 5 2)).v 1 1) 5) :=
  stimulus_persists_every_step ex3 1 1 5 2 3 (by decide) (by decide)

/-- Claim C5 evaluation (code defect): saving the 1×1 model whose `u` value
is `0.1234567` and loading the file into a freshly constructed model of the
same dimensions returns `true`, yet the loaded `u` value differs from the
saved one: `saveState` prints through the default stream precision of 6
significant digits (`fmt6`), so the file holds `0.123457` and the exact
round trip claimed by the specification fails. -/
theorem save_load_precision_loss :
    (loadState (fhnNew 1 1 (1/100)) (saveState fmt6 c5State)).1 = true ∧
    (loadState (fhnNew 1 1 (1/100)) (saveState fmt6 c5State)).2.u 0 0
      ≠ c5State.u 0 0 ∧
    fmt6 (c5State.u 0 0) ≠ c5State.u 0 0 := by
  refine ⟨rfl, ?_, ?_⟩
  · norm_num [loadState, saveState, c5State, fhnNew, rowMajorToks, fillRowMajor,
      fmt6, round_eq, List.range_succ, zeroGrid]
  · norm_num [c5State, fmt6, round_eq]

end MI
